import Mathlib

/-!
Verification of the role-based task-management service
(`src/services/task.service.js` together with the Task schema).

The service is shallowly embedded: the Mongo/Mongoose task store is a
`List Task`, the user collection a `List User`, and each service method a
pure function threading the store explicitly.  Mongoose `ObjectId`s and
timestamps are modelled as `Nat` values supplied explicitly by the caller
of the embedded operation.  JavaScript numbers arising from query-string
coercion are modelled as `Option Int`, where `none` stands for `NaN`
(or a non-finite value); the embedding of the numeric coercions covers
decimal integer literals, whitespace and non-numeric strings (the inputs
this API receives), not fractional, hexadecimal or scientific literals.
-/

namespace TaskMgmt

/-- A user record, as stored in the users collection (password hash omitted:
never read by the task service). -/
structure User where
  id : Nat
  name : String
  email : String
  role : String
deriving DecidableEq

/-- A task document, following the Mongoose `taskSchema`: `title` (trimmed,
required, max 100), `description` (required, max 500), `status` and
`priority` enums, optional `dueDate`, `assignedTo`/`createdBy` user
references, soft-delete flag `isDeleted` and the `createdAt` timestamp
(`updatedAt` is maintained by Mongoose but never read by the service, so it
is omitted from the embedding). -/
structure Task where
  id : Nat
  title : String
  description : String
  status : String
  priority : String
  dueDate : Option Nat
  assignedTo : Nat
  createdBy : Nat
  isDeleted : Bool
  createdAt : Nat
deriving DecidableEq

/-- The projection `populate(field, 'name email')` produces: the referenced
user's id, name and email. -/
structure UserRef where
  id : Nat
  name : String
  email : String
deriving DecidableEq

/-- Resolve a user reference, as Mongoose `populate` does; `none` models the
`null` produced by a dangling reference. -/
def populateUser (users : List User) (uid : Nat) : Option UserRef :=
  (users.find? (fun u => u.id == uid)).map (fun u => ⟨u.id, u.name, u.email⟩)

/-- A task as returned by the service after
`.populate(assignedTo).populate(createdBy)`: the document together with the
resolved references.  (Mongoose replaces the reference fields in place; the
raw ids stay recoverable through the populated documents, so the embedding
keeps the document and attaches the resolved users beside it.) -/
structure PopTask where
  task : Task
  assignedToUser : Option UserRef
  createdByUser : Option UserRef
deriving DecidableEq

def populateTask (users : List User) (t : Task) : PopTask :=
  ⟨t, populateUser users t.assignedTo, populateUser users t.createdBy⟩

/-- Enum check from the schema: status is todo, in-progress or done. -/
def validStatus (s : String) : Bool :=
  s == "todo" || s == "in-progress" || s == "done"

/-- Enum check from the schema: priority is low, medium or high. -/
def validPriority (p : String) : Bool :=
  p == "low" || p == "medium" || p == "high"

/-- The schema validation Mongoose runs on create and save: required
non-empty title (stored trimmed) of at most 100 characters, required
non-empty description of at most 500 characters, and enum membership for
status and priority. -/
def validTask (t : Task) : Bool :=
  t.title != "" && t.title.length ≤ 100 &&
  t.description != "" && t.description.length ≤ 500 &&
  validStatus t.status && validPriority t.priority

/-- The request body accepted by `createTask` (and, spread field by field,
by `updateTask`).  Every schema field may appear; `createdBy` and
`isDeleted` may be supplied by a (possibly malicious) caller since the
controller passes `req.body` through unchanged. -/
structure TaskData where
  title : Option String := none
  description : Option String := none
  status : Option String := none
  priority : Option String := none
  dueDate : Option Nat := none
  assignedTo : Option Nat := none
  createdBy : Option Nat := none
  isDeleted : Option Bool := none
deriving DecidableEq

/-- JavaScript string trimming, embedded structurally on the character
list (so that proofs can evaluate it in the kernel): strip whitespace from
both ends. -/
def trimChars (cs : List Char) : List Char :=
  ((cs.dropWhile Char.isWhitespace).reverse.dropWhile Char.isWhitespace).reverse

def jsTrim (s : String) : String := ⟨trimChars s.data⟩

/-- The natural number denoted by a list of decimal digits. -/
def digitsVal (cs : List Char) : Nat :=
  cs.foldl (fun a c => a * 10 + (c.toNat - 48)) 0

/-- The document handed to `Task.create`: the spread of `taskData` with
`createdBy: userId` written after the spread (so it always wins) and
`assignedTo: taskData.assignedTo || userId`.  Missing fields take the
schema defaults (status `todo`, priority `medium`, `isDeleted` false);
`newId` and `now` stand for the generated ObjectId and the `timestamps`
clock.  An `ObjectId` is never falsy, so the JavaScript `||` default fires
exactly when `assignedTo` is absent. -/
def buildNewTask (td : TaskData) (userId newId now : Nat) : Task :=
  { id := newId
    title := jsTrim (td.title.getD "")
    description := td.description.getD ""
    status := td.status.getD "todo"
    priority := td.priority.getD "medium"
    dueDate := td.dueDate
    assignedTo := td.assignedTo.getD userId
    createdBy := userId
    isDeleted := td.isDeleted.getD false
    createdAt := now }

/-- The error conditions the service signals by throwing (or that the store
layer raises); `NotFound` is not among them — it is the `none` sentinel. -/
inductive SvcError where
  | notAuthorizedAccess
  | notAuthorizedUpdate
  | notAuthorizedDelete
  | validationError
deriving DecidableEq

/-- The lookup `findOne(\x7b _id: taskId, isDeleted: false \x7d)` shared by
getTaskById, updateTask and deleteTask. -/
def findActive (store : List Task) (taskId : Nat) : Option Task :=
  store.find? (fun t => t.id == taskId && !t.isDeleted)

/-- Persisting `task.save()`: the document with this id is replaced in the
store (ids are unique in Mongo, so replacing every occurrence coincides
with replacing the one document). -/
def saveTask (store : List Task) (t : Task) : List Task :=
  store.map (fun u => if u.id == t.id then t else u)

/-- `TaskService.createTask(taskData, userId)`: validate and insert the
built document, then return it via `findById` with both references
populated.  No role is consulted — the operation has no authorization
check. -/
def createTask (td : TaskData) (userId newId now : Nat)
    (store : List Task) (users : List User) :
    Except SvcError (Option PopTask × List Task) :=
  let t := buildNewTask td userId newId now
  if !(validTask t) then .error .validationError
  else
    let store' := store ++ [t]
    .ok ((store'.find? (fun u => u.id == t.id)).map (populateTask users), store')

/-- `TaskService.getTaskById(taskId, userId, userRole)`: `findOne` on the
non-deleted id, `null` sentinel when absent, authorization error when the
caller is no admin and not the assignee, otherwise the populated record.
(The code compares the populated reference id `task.assignedTo._id`, which
equals the stored `assignedTo` id; the spec's referential-integrity
invariant keeps the reference resolvable, so the comparison is embedded on
the stored id.) -/
def getTaskById (taskId userId : Nat) (userRole : String)
    (store : List Task) (users : List User) :
    Except SvcError (Option PopTask) :=
  match findActive store taskId with
  | none => .ok none
  | some t =>
    if userRole != "admin" && t.assignedTo != userId then
      .error .notAuthorizedAccess
    else
      .ok (some (populateTask users t))

/-- `Object.assign(task, updateData)`: every field present in the patch
overwrites the stored field (the title setter trims, as on create). -/
def applyUpdate (t : Task) (u : TaskData) : Task :=
  { t with
    title := (u.title.map jsTrim).getD t.title
    description := u.description.getD t.description
    status := u.status.getD t.status
    priority := u.priority.getD t.priority
    dueDate := match u.dueDate with | some d => some d | none => t.dueDate
    assignedTo := u.assignedTo.getD t.assignedTo
    createdBy := u.createdBy.getD t.createdBy
    isDeleted := u.isDeleted.getD t.isDeleted }

/-- `TaskService.updateTask(taskId, updateData, userId, userRole)`:
`findOne` on the non-deleted id (`null` sentinel when absent),
authorization by `assignedTo`, then `Object.assign` + validating `save`,
returning the updated document populated via `findById`. -/
def updateTask (taskId : Nat) (upd : TaskData) (userId : Nat)
    (userRole : String) (store : List Task) (users : List User) :
    Except SvcError (Option PopTask × List Task) :=
  match findActive store taskId with
  | none => .ok (none, store)
  | some t =>
    if userRole != "admin" && t.assignedTo != userId then
      .error .notAuthorizedUpdate
    else
      let t' := applyUpdate t upd
      if !(validTask t') then .error .validationError
      else
        let store' := saveTask store t'
        .ok ((store'.find? (fun u => u.id == t'.id)).map (populateTask users),
             store')

/-- `TaskService.deleteTask(taskId, userId, userRole)`: `findOne` on the
non-deleted id (`null` sentinel when absent), authorization by `createdBy`
(not `assignedTo`), then the soft delete `isDeleted := true` is saved; the
mutated document is returned unpopulated, exactly as the code does. -/
def deleteTask (taskId userId : Nat) (userRole : String)
    (store : List Task) :
    Except SvcError (Option Task × List Task) :=
  match findActive store taskId with
  | none => .ok (none, store)
  | some t =>
    if userRole != "admin" && t.createdBy != userId then
      .error .notAuthorizedDelete
    else
      let t' := { t with isDeleted := true }
      if !(validTask t') then .error .validationError
      else
        .ok (some t', saveTask store t')

/-! ### getTasks: query coercion, filtering, sorting, pagination -/

/-- The query-string parameters of GET /tasks; each is either absent or the
raw string the HTTP layer produced. -/
structure TaskQuery where
  page : Option String := none
  limit : Option String := none
  status : Option String := none
  priority : Option String := none
  sortBy : Option String := none
deriving DecidableEq

/-- JavaScript `ToNumber` on a string, as triggered by the arithmetic
`(page - 1) * limit`: blank strings give 0, signed decimal integer
literals their value, anything else `NaN` (modelled `none`; fractional,
hexadecimal and scientific literals are outside the embedding). -/
def toNumber (s : String) : Option Int :=
  match trimChars s.data with
  | [] => some 0
  | '-' :: rest =>
    if rest ≠ [] ∧ rest.all Char.isDigit then
      some (-((digitsVal rest : Nat) : Int))
    else none
  | '+' :: rest =>
    if rest ≠ [] ∧ rest.all Char.isDigit then
      some ((digitsVal rest : Nat) : Int)
    else none
  | cs =>
    if cs.all Char.isDigit then some ((digitsVal cs : Nat) : Int) else none

/-- The longest leading digit run, signed and evaluated; `none` models the
`NaN` that `parseInt` yields when no digits are found. -/
def parseIntAux (sgn : Int) (cs : List Char) : Option Int :=
  let digits := cs.takeWhile Char.isDigit
  if digits.isEmpty then none
  else some (sgn * ((digitsVal digits : Nat) : Int))

/-- JavaScript `parseInt` on a string: the longest leading signed digit
sequence after trimming, `NaN` (modelled `none`) when there is none. -/
def parseIntJS (s : String) : Option Int :=
  match trimChars s.data with
  | '-' :: rest => parseIntAux (-1) rest
  | '+' :: rest => parseIntAux 1 rest
  | cs => parseIntAux 1 cs

/-- The destructured `page = 1` default: the literal number 1 when the
parameter is absent, otherwise the raw string coerced by `ToNumber`. -/
def pageNum (q : TaskQuery) : Option Int :=
  match q.page with
  | none => some 1
  | some s => toNumber s

/-- `parseInt(page)` as used for the pagination metadata (`parseInt` of the
numeric default 1 is 1). -/
def pageParsed (q : TaskQuery) : Option Int :=
  match q.page with
  | none => some 1
  | some s => parseIntJS s

/-- `ToNumber` of the destructured `limit = 10`, as used in
`(page - 1) * limit` and in `total / limit`. -/
def limitNum (q : TaskQuery) : Option Int :=
  match q.limit with
  | none => some 10
  | some s => toNumber s

/-- `parseInt(limit)` as passed to the cursor's `.limit()` and to the
metadata. -/
def limitParsed (q : TaskQuery) : Option Int :=
  match q.limit with
  | none => some 10
  | some s => parseIntJS s

/-- `const skip = (page - 1) * limit`, with NaN propagating. -/
def skipVal (q : TaskQuery) : Option Int := do
  let p ← pageNum q
  let l ← limitNum q
  pure ((p - 1) * l)

/-- One optional equality filter of the form `if (status) filter.status =
status`: an absent or empty (falsy) parameter imposes no constraint. -/
def strFilter (qv : Option String) (fieldVal : String) : Bool :=
  match qv with
  | none => true
  | some s => if s == "" then true else fieldVal == s

/-- The `filter` object built by getTasks: always `isDeleted: false`, the
row-level restriction `assignedTo: userId` for non-admins, plus the
optional status and priority filters. -/
def taskFilter (userId : Nat) (userRole : String) (q : TaskQuery)
    (t : Task) : Bool :=
  !t.isDeleted
  && (userRole == "admin" || t.assignedTo == userId)
  && strFilter q.status t.status
  && strFilter q.priority t.priority

/-- Newest first: the default sort order `-createdAt`. -/
def createdAtDesc (a b : Task) : Prop := b.createdAt ≤ a.createdAt

instance : DecidableRel createdAtDesc :=
  fun a b => inferInstanceAs (Decidable (b.createdAt ≤ a.createdAt))

/-- Oldest first: the sort order `createdAt`. -/
def createdAtAsc (a b : Task) : Prop := a.createdAt ≤ b.createdAt

instance : DecidableRel createdAtAsc :=
  fun a b => inferInstanceAs (Decidable (a.createdAt ≤ b.createdAt))

/-- The destructured `sortBy = '-createdAt'` default. -/
def sortKey (q : TaskQuery) : String := q.sortBy.getD "-createdAt"

/-- The cursor's `.sort(sortBy)` for the creation-time keys the API
documents (a stable sort, as the spec requires); other sort strings are
outside the embedding and leave the natural order. -/
def applySort (key : String) (l : List Task) : List Task :=
  if key == "-createdAt" then l.insertionSort createdAtDesc
  else if key == "createdAt" then l.insertionSort createdAtAsc
  else l

/-- `Math.ceil(total / limit)` on naturals (used with a positive limit). -/
def ceilDivNat (a b : Nat) : Nat := (a + b - 1) / b

/-- The `pages` metadata `Math.ceil(total / limit)`, dividing by the
`ToNumber` image of the raw limit; a NaN or non-positive limit makes the
quotient NaN or infinite, modelled `none`. -/
def pagesMeta (total : Nat) (q : TaskQuery) : Option Int :=
  match limitNum q with
  | none => none
  | some l => if l ≤ 0 then none else some (ceilDivNat total l.toNat)

/-- The pagination metadata object returned beside the task page; `Option
Int` fields model possibly-NaN JavaScript numbers. -/
structure Pagination where
  page : Option Int
  limit : Option Int
  total : Nat
  pages : Option Int
deriving DecidableEq

/-- The cursor's `.skip(sk).limit(lim)` on the sorted result, for
non-negative arguments; a limit of 0 means no limit, as in MongoDB. -/
def sliceTasks (sk lim : Int) (l : List Task) : List Task :=
  let d := l.drop sk.toNat
  if lim = 0 then d else d.take lim.toNat

/-- `TaskService.getTasks(userId, userRole, query)`: build the filter, sort,
skip/limit, populate, and count the matching documents for the metadata.
`none` models the rejected store call that a NaN or negative skip/limit
produces (MongoDB refuses them), in which case the service throws instead
of returning a result. -/
def getTasks (userId : Nat) (userRole : String) (q : TaskQuery)
    (store : List Task) (users : List User) :
    Option (List PopTask × Pagination) :=
  match skipVal q, limitParsed q with
  | some sk, some lim =>
    if sk < 0 ∨ lim < 0 then none
    else
      let matching := store.filter (taskFilter userId userRole q)
      let sorted := applySort (sortKey q) matching
      let tasks := (sliceTasks sk lim sorted).map (populateTask users)
      let total := matching.length
      some (tasks, ⟨pageParsed q, some lim, total, pagesMeta total q⟩)
  | _, _ => none

/-- One `$group` result row: the grouping value `_id` and its count. -/
structure StatGroup where
  group : String
  count : Nat
deriving DecidableEq

/-- The aggregation `$match isDeleted:false` then `$group by key with $sum
1`: one row per distinct key value among the non-deleted tasks, counting
its occurrences (the server reports groups in no guaranteed order; the
embedding lists them in first-occurrence order). -/
def groupCount (key : Task → String) (store : List Task) : List StatGroup :=
  let alive := store.filter (fun t => !t.isDeleted)
  ((alive.map key).dedup).map
    (fun g => ⟨g, (alive.filter (fun t => key t == g)).length⟩)

/-- The stats payload: counts by status and by priority. -/
structure TaskStats where
  byStatus : List StatGroup
  byPriority : List StatGroup
deriving DecidableEq

/-- `TaskService.getTaskStats()`: the two aggregations over non-deleted
tasks. -/
def getTaskStats (store : List Task) : TaskStats :=
  ⟨groupCount (fun t => t.status) store,
   groupCount (fun t => t.priority) store⟩

/-- Mongo's guarantee that `_id` is a primary key: no two documents share
an id. -/
def idsNodup (store : List Task) : Prop :=
  (store.map (fun t => t.id)).Nodup

/-! ### Shared lemmas about the embedded operations -/

theorem findActive_eq_none_iff (store : List Task) (taskId : Nat) :
    findActive store taskId = none ↔
      ∀ t ∈ store, t.id = taskId → t.isDeleted = true := by
  unfold findActive
  rw [List.find?_eq_none]
  constructor
  · intro h t ht hid
    have h2 := h t ht
    simp only [Bool.and_eq_true, beq_iff_eq, Bool.not_eq_true', not_and] at h2
    by_contra hdel
    exact (h2 hid) (by simpa using hdel)
  · intro h t ht
    simp only [Bool.and_eq_true, beq_iff_eq, Bool.not_eq_true', not_and]
    intro hid hdel
    rw [h t ht hid] at hdel
    exact Bool.noConfusion hdel

theorem findActive_spec {store : List Task} {taskId : Nat} {t : Task}
    (h : findActive store taskId = some t) :
    t ∈ store ∧ t.id = taskId ∧ t.isDeleted = false := by
  unfold findActive at h
  have hp := List.find?_some h
  have hm := List.mem_of_find?_eq_some h
  simp only [Bool.and_eq_true, beq_iff_eq, Bool.not_eq_true'] at hp
  exact ⟨hm, hp.1, hp.2⟩

theorem task_eq_of_idsNodup {store : List Task} (hn : idsNodup store)
    {u v : Task} (hu : u ∈ store) (hv : v ∈ store) (hid : u.id = v.id) :
    u = v :=
  List.inj_on_of_nodup_map hn hu hv hid

theorem findActive_eq_some_of {store : List Task} (hn : idsNodup store)
    {t : Task} (ht : t ∈ store) {taskId : Nat} (hid : t.id = taskId)
    (hdel : t.isDeleted = false) : findActive store taskId = some t := by
  have hsome : (store.find? (fun x => x.id == taskId && !x.isDeleted)).isSome := by
    rw [List.find?_isSome]
    exact ⟨t, ht, by simp [hid, hdel]⟩
  obtain ⟨u, hu⟩ := Option.isSome_iff_exists.mp hsome
  have hp := List.find?_some hu
  have hm := List.mem_of_find?_eq_some hu
  simp only [Bool.and_eq_true, beq_iff_eq, Bool.not_eq_true'] at hp
  have heq : u = t := task_eq_of_idsNodup hn hm ht (by rw [hp.1, hid])
  unfold findActive
  rw [hu, heq]

theorem mem_applySort {x : Task} (key : String) (l : List Task) :
    x ∈ applySort key l ↔ x ∈ l := by
  unfold applySort
  split
  · exact (List.perm_insertionSort _ _).mem_iff
  · split
    · exact (List.perm_insertionSort _ _).mem_iff
    · exact Iff.rfl

theorem mem_of_mem_sliceTasks {x : Task} {sk lim : Int} {l : List Task}
    (h : x ∈ sliceTasks sk lim l) : x ∈ l := by
  unfold sliceTasks at h
  split at h
  · exact List.mem_of_mem_drop h
  · exact List.mem_of_mem_drop (List.mem_of_mem_take h)

theorem getTasks_mem {uid : Nat} {role : String} {q : TaskQuery}
    {store : List Task} {users : List User} {tasks : List PopTask}
    {pg : Pagination}
    (h : getTasks uid role q store users = some (tasks, pg)) {pt : PopTask}
    (hm : pt ∈ tasks) :
    pt.task ∈ store ∧ taskFilter uid role q pt.task = true := by
  unfold getTasks at h
  cases hsk : skipVal q with
  | none => rw [hsk] at h; cases h
  | some sk =>
    cases hlm : limitParsed q with
    | none => rw [hsk, hlm] at h; cases h
    | some lim =>
      rw [hsk, hlm] at h
      simp only at h
      split at h
      · cases h
      · simp only [Option.some.injEq, Prod.mk.injEq] at h
        obtain ⟨htasks, _⟩ := h
        rw [← htasks] at hm
        obtain ⟨x, hx, rfl⟩ := List.mem_map.mp hm
        have hx2 := mem_of_mem_sliceTasks hx
        have hx3 := (mem_applySort _ _).mp hx2
        have hx4 := List.mem_filter.mp hx3
        exact ⟨hx4.1, hx4.2⟩

theorem deleteTask_ok_some {taskId uid : Nat} {role : String}
    {store store' : List Task} {t : Task}
    (h : deleteTask taskId uid role store = .ok (some t, store')) :
    ∃ t0, findActive store taskId = some t0
      ∧ t = { t0 with isDeleted := true } ∧ store' = saveTask store t := by
  unfold deleteTask at h
  split at h
  · simp at h
  · rename_i t0 hf
    split at h
    · cases h
    · dsimp only at h
      split at h
      · cases h
      · simp only [Except.ok.injEq, Prod.mk.injEq, Option.some.injEq] at h
        obtain ⟨h1, h2⟩ := h
        exact ⟨t0, hf, h1.symm, by rw [← h2, ← h1]⟩

theorem saveTask_tombstone {store : List Task} {taskId : Nat} {t0 : Task}
    (hf : findActive store taskId = some t0) :
    ∀ u ∈ saveTask store { t0 with isDeleted := true },
      u.id = taskId → u.isDeleted = true := by
  intro u hu hid
  obtain ⟨_, hid0, _⟩ := findActive_spec hf
  obtain ⟨v, hv, hveq⟩ := List.mem_map.mp hu
  by_cases hc : v.id = t0.id
  · rw [← hveq]
    simp [hc]
  · exfalso
    have : u = v := by rw [← hveq]; simp [hc]
    rw [this] at hid
    exact hc (by rw [hid, hid0])


/-! ### The claims -/

/-- C1: for a caller whose role is not admin, getTasks returns only tasks
assigned to the caller and not soft-deleted; for an admin the filter keeps
exactly the non-deleted tasks matching the optional status/priority
filters; no soft-deleted task is ever in any caller's result. -/
theorem getTasks_row_level_visibility (uid : Nat) (role : String)
    (q : TaskQuery) (store : List Task) (users : List User)
    (tasks : List PopTask) (pg : Pagination)
    (h : getTasks uid role q store users = some (tasks, pg)) :
    (∀ pt ∈ tasks,
      pt.task.isDeleted = false ∧ (role ≠ "admin" → pt.task.assignedTo = uid))
    ∧ (∀ t : Task, taskFilter uid "admin" q t =
        (!t.isDeleted && strFilter q.status t.status
          && strFilter q.priority t.priority)) := by
  constructor
  · intro pt hpt
    obtain ⟨hmem, hfil⟩ := getTasks_mem h hpt
    unfold taskFilter at hfil
    simp only [Bool.and_eq_true, Bool.or_eq_true, beq_iff_eq,
      Bool.not_eq_true'] at hfil
    obtain ⟨⟨⟨hd, hor⟩, -⟩, -⟩ := hfil
    refine ⟨hd, fun hr => ?_⟩
    rcases hor with hadmin | hassigned
    · exact absurd hadmin hr
    · exact hassigned
  · intro t
    unfold taskFilter
    simp

theorem getTasks_row_level_visibility_witness :
    (∀ pt ∈ ([⟨⟨1, "T", "D", "todo", "medium", none, 1, 1, false, 0⟩,
        none, none⟩] : List PopTask),
      pt.task.isDeleted = false ∧ ("user" ≠ "admin" → pt.task.assignedTo = 1))
    ∧ (∀ t : Task, taskFilter 1 "admin" {} t =
        (!t.isDeleted && strFilter none t.status
          && strFilter none t.priority)) :=
  getTasks_row_level_visibility 1 "user" {}
    [⟨1, "T", "D", "todo", "medium", none, 1, 1, false, 0⟩] [] _ _ rfl

/-- C2: once deleteTask has succeeded on an id, the id behaves as not-found
everywhere: getTaskById, updateTask and a second deleteTask return the
null sentinel without error, and getTasks never lists it. -/
theorem deleteTask_tombstones (taskId uid : Nat) (role : String)
    (store store' : List Task) (t : Task)
    (h : deleteTask taskId uid role store = .ok (some t, store')) :
    (∀ uid2 role2 users,
      getTaskById taskId uid2 role2 store' users = .ok none)
    ∧ (∀ uid2 role2 q users tasks pg,
        getTasks uid2 role2 q store' users = some (tasks, pg) →
        ∀ pt ∈ tasks, pt.task.id ≠ taskId)
    ∧ (∀ upd uid2 role2 users,
        updateTask taskId upd uid2 role2 store' users = .ok (none, store'))
    ∧ (∀ uid2 role2,
        deleteTask taskId uid2 role2 store' = .ok (none, store')) := by
  obtain ⟨t0, hf, ht, hs⟩ := deleteTask_ok_some h
  subst ht
  subst hs
  have htomb := saveTask_tombstone hf
  have hnone : findActive (saveTask store { t0 with isDeleted := true })
      taskId = none :=
    (findActive_eq_none_iff _ _).mpr htomb
  refine ⟨?_, ?_, ?_, ?_⟩
  · intro uid2 role2 users
    unfold getTaskById
    rw [hnone]
  · intro uid2 role2 q users tasks pg hg pt hpt hid
    obtain ⟨hmem, hfil⟩ := getTasks_mem hg hpt
    have hdel := htomb pt.task hmem hid
    unfold taskFilter at hfil
    simp [hdel] at hfil
  · intro upd uid2 role2 users
    unfold updateTask
    rw [hnone]
  · intro uid2 role2
    unfold deleteTask
    rw [hnone]

theorem deleteTask_tombstones_witness :
    getTaskById 1 2 "admin"
      [⟨1, "T", "D", "todo", "medium", none, 1, 1, true, 0⟩] [] = .ok none :=
  (deleteTask_tombstones 1 1 "user"
      [⟨1, "T", "D", "todo", "medium", none, 1, 1, false, 0⟩]
      [⟨1, "T", "D", "todo", "medium", none, 1, 1, true, 0⟩]
      ⟨1, "T", "D", "todo", "medium", none, 1, 1, true, 0⟩ rfl).1 2 "admin" []

/-- C3: ownership asymmetry — on a live task assigned to A but created by
B ≠ A, the non-admin A passes the update authorization (the only error an
update can still raise is schema validation), while the same A is refused
deletion: update authorization reads assignedTo, delete authorization
reads createdBy. -/
theorem update_delete_ownership_asymmetry (taskId A B : Nat)
    (upd : TaskData) (store : List Task) (users : List User) (tk : Task)
    (hn : idsNodup store) (htk : tk ∈ store) (hid : tk.id = taskId)
    (hdel : tk.isDeleted = false) (hA : tk.assignedTo = A)
    (hB : tk.createdBy = B) (hAB : A ≠ B) :
    (∀ e, updateTask taskId upd A "user" store users = .error e →
      e = SvcError.validationError)
    ∧ deleteTask taskId A "user" store = .error .notAuthorizedDelete := by
  have hf : findActive store taskId = some tk :=
    findActive_eq_some_of hn htk hid hdel
  constructor
  · intro e he
    unfold updateTask at he
    simp only [hf] at he
    have hcond : ¬ (("user" != "admin" && tk.assignedTo != A) = true) := by
      simp [hA]
    rw [if_neg hcond] at he
    try dsimp only at he
    split at he
    · simp only [Except.error.injEq] at he
      exact he.symm
    · exact Except.noConfusion he
  · have hco : ("user" != "admin" && tk.createdBy != A) = true := by
      simp only [hB, Bool.and_eq_true, bne_iff_ne, ne_eq]
      exact ⟨by decide, fun h => hAB h.symm⟩
    unfold deleteTask
    simp only [hf]
    rw [if_pos hco]

theorem update_delete_ownership_asymmetry_witness :
    (∀ e, updateTask 5 {} 1 "user"
        [⟨5, "T", "D", "todo", "medium", none, 1, 2, false, 0⟩] [] =
        .error e → e = SvcError.validationError)
    ∧ deleteTask 5 1 "user"
        [⟨5, "T", "D", "todo", "medium", none, 1, 2, false, 0⟩] =
        .error .notAuthorizedDelete :=
  update_delete_ownership_asymmetry 5 1 2 {}
    [⟨5, "T", "D", "todo", "medium", none, 1, 2, false, 0⟩] []
    ⟨5, "T", "D", "todo", "medium", none, 1, 2, false, 0⟩
    (by unfold idsNodup; decide) (List.mem_singleton.mpr rfl)
    rfl rfl rfl rfl (by decide)

/-- C4: getTaskById returns the null sentinel exactly when no live task
with the id exists, raises the authorization error exactly when a live
task exists whose assignee differs from a non-admin caller, and otherwise
returns the populated record — so not-found and not-authorized are the
sentinel value and the thrown error, two distinguishable outcomes. -/
theorem getTaskById_trichotomy (taskId uid : Nat) (role : String)
    (store : List Task) (users : List User) (hn : idsNodup store) :
    (getTaskById taskId uid role store users = .ok none ↔
      ∀ t ∈ store, t.id = taskId → t.isDeleted = true)
    ∧ (getTaskById taskId uid role store users =
        .error .notAuthorizedAccess ↔
      ∃ t ∈ store, t.id = taskId ∧ t.isDeleted = false ∧
        role ≠ "admin" ∧ t.assignedTo ≠ uid)
    ∧ (∀ t ∈ store, t.id = taskId → t.isDeleted = false →
        (role = "admin" ∨ t.assignedTo = uid) →
        getTaskById taskId uid role store users =
          .ok (some (populateTask users t))) := by
  cases hf : findActive store taskId with
  | none =>
    have hall := (findActive_eq_none_iff store taskId).mp hf
    have hres : getTaskById taskId uid role store users = .ok none := by
      unfold getTaskById; rw [hf]
    refine ⟨⟨fun _ => hall, fun _ => hres⟩, ⟨?_, ?_⟩, ?_⟩
    · intro habs
      rw [hres] at habs
      exact Except.noConfusion habs
    · rintro ⟨t, ht, hid, hdel, -, -⟩
      rw [hall t ht hid] at hdel
      exact absurd hdel (by decide)
    · intro t ht hid hdel _
      rw [hall t ht hid] at hdel
      exact absurd hdel (by decide)
  | some t0 =>
    obtain ⟨ht0, hid0, hdel0⟩ := findActive_spec hf
    by_cases hauth : (role != "admin" && t0.assignedTo != uid) = true
    · have hres : getTaskById taskId uid role store users =
          .error .notAuthorizedAccess := by
        unfold getTaskById; simp only [hf]; rw [if_pos hauth]
      simp only [Bool.and_eq_true, bne_iff_ne, ne_eq] at hauth
      refine ⟨⟨?_, ?_⟩, ⟨?_, fun _ => hres⟩, ?_⟩
      · intro h; rw [hres] at h; exact Except.noConfusion h
      · intro hall
        rw [hall t0 ht0 hid0] at hdel0
        exact absurd hdel0 (by decide)
      · intro _
        exact ⟨t0, ht0, hid0, hdel0, hauth.1, hauth.2⟩
      · intro t ht hid hdel hcase
        have heq : t = t0 := task_eq_of_idsNodup hn ht ht0 (by rw [hid, hid0])
        subst heq
        rcases hcase with hadm | hasg
        · exact absurd hadm hauth.1
        · exact absurd hasg hauth.2
    · have hres : getTaskById taskId uid role store users =
          .ok (some (populateTask users t0)) := by
        unfold getTaskById; simp only [hf]; rw [if_neg hauth]
      refine ⟨⟨?_, ?_⟩, ⟨?_, ?_⟩, ?_⟩
      · intro h
        rw [hres] at h
        simp at h
      · intro hall
        rw [hall t0 ht0 hid0] at hdel0
        exact absurd hdel0 (by decide)
      · intro h; rw [hres] at h; exact Except.noConfusion h
      · rintro ⟨t, ht, hid, hdel, hr, hasg⟩
        have heq : t = t0 := task_eq_of_idsNodup hn ht ht0 (by rw [hid, hid0])
        subst heq
        exfalso
        apply hauth
        simp only [Bool.and_eq_true, bne_iff_ne, ne_eq]
        exact ⟨hr, hasg⟩
      · intro t ht hid hdel _
        have heq : t = t0 := task_eq_of_idsNodup hn ht ht0 (by rw [hid, hid0])
        subst heq
        exact hres

theorem getTaskById_trichotomy_witness :
    getTaskById 7 3 "user"
      [⟨7, "T", "D", "todo", "medium", none, 3, 3, false, 0⟩] [] =
      .ok (some (populateTask []
        ⟨7, "T", "D", "todo", "medium", none, 3, 3, false, 0⟩)) :=
  (getTaskById_trichotomy 7 3 "user"
      [⟨7, "T", "D", "todo", "medium", none, 3, 3, false, 0⟩] []
      (by unfold idsNodup; decide)).2.2
    ⟨7, "T", "D", "todo", "medium", none, 3, 3, false, 0⟩
    (List.mem_singleton.mpr rfl) rfl rfl (Or.inr rfl)

/-- C6: createTask consults no role — the operation has no authorization
input at all; with schema-valid data it succeeds, the created document has
createdBy = callerId and assignedTo = the supplied assignee (or the caller
when omitted), and the returned record carries both references expanded to
id, name and email. -/
theorem createTask_no_auth_and_defaults (td : TaskData)
    (uid newId now : Nat) (store : List Task) (users : List User)
    (hv : validTask (buildNewTask td uid newId now) = true)
    (hfresh : ∀ t ∈ store, t.id ≠ newId)
    (ha : ∃ u ∈ users, u.id = td.assignedTo.getD uid)
    (hc : ∃ u ∈ users, u.id = uid) :
    ∃ pt : PopTask,
      createTask td uid newId now store users =
        .ok (some pt, store ++ [buildNewTask td uid newId now])
      ∧ pt.task = buildNewTask td uid newId now
      ∧ pt.task.createdBy = uid
      ∧ pt.task.assignedTo = (match td.assignedTo with
          | some a => a
          | none => uid)
      ∧ (∃ ra : UserRef, pt.assignedToUser = some ra
          ∧ ra.id = td.assignedTo.getD uid)
      ∧ (∃ rc : UserRef, pt.createdByUser = some rc ∧ rc.id = uid) := by
  refine ⟨populateTask users (buildNewTask td uid newId now),
    ?_, rfl, rfl, ?_, ?_, ?_⟩
  · unfold createTask
    rw [if_neg (by simp [hv])]
    have hfind : (store ++ [buildNewTask td uid newId now]).find?
        (fun u => u.id == (buildNewTask td uid newId now).id) =
        some (buildNewTask td uid newId now) := by
      rw [List.find?_append]
      have h1 : store.find?
          (fun u => u.id == (buildNewTask td uid newId now).id) = none := by
        rw [List.find?_eq_none]
        intro x hx
        simp only [beq_iff_eq]
        exact hfresh x hx
      rw [h1]
      simp
    simp only [hfind]
    rfl
  · show (buildNewTask td uid newId now).assignedTo = _
    unfold buildNewTask
    cases td.assignedTo <;> rfl
  · obtain ⟨u, hu, huid⟩ := ha
    have hsome : (users.find?
        (fun v => v.id == td.assignedTo.getD uid)).isSome := by
      rw [List.find?_isSome]
      exact ⟨u, hu, by simp [huid]⟩
    obtain ⟨v, hv2⟩ := Option.isSome_iff_exists.mp hsome
    have hvp := List.find?_some hv2
    simp only [beq_iff_eq] at hvp
    refine ⟨⟨v.id, v.name, v.email⟩, ?_, hvp⟩
    show populateUser users (buildNewTask td uid newId now).assignedTo = _
    have : (buildNewTask td uid newId now).assignedTo =
        td.assignedTo.getD uid := rfl
    rw [this]
    unfold populateUser
    rw [hv2]
    rfl
  · obtain ⟨u, hu, huid⟩ := hc
    have hsome : (users.find? (fun v => v.id == uid)).isSome := by
      rw [List.find?_isSome]
      exact ⟨u, hu, by simp [huid]⟩
    obtain ⟨v, hv2⟩ := Option.isSome_iff_exists.mp hsome
    have hvp := List.find?_some hv2
    simp only [beq_iff_eq] at hvp
    refine ⟨⟨v.id, v.name, v.email⟩, ?_, hvp⟩
    show populateUser users (buildNewTask td uid newId now).createdBy = _
    have : (buildNewTask td uid newId now).createdBy = uid := rfl
    rw [this]
    unfold populateUser
    rw [hv2]
    rfl

theorem createTask_no_auth_and_defaults_witness :
    (validTask (buildNewTask { title := some "T", description := some "D" }
      4 9 3) = true)
    ∧ ∃ pt : PopTask,
      createTask { title := some "T", description := some "D" } 4 9 3 []
          [⟨4, "N", "E", "user"⟩] =
        .ok (some pt,
          [] ++ [buildNewTask { title := some "T", description := some "D" }
            4 9 3])
      ∧ pt.task = buildNewTask { title := some "T", description := some "D" }
          4 9 3
      ∧ pt.task.createdBy = 4
      ∧ pt.task.assignedTo =
          (match (none : Option Nat) with | some a => a | none => 4)
      ∧ (∃ ra : UserRef, pt.assignedToUser = some ra
          ∧ ra.id = (none : Option Nat).getD 4)
      ∧ (∃ rc : UserRef, pt.createdByUser = some rc ∧ rc.id = 4) :=
  ⟨by rfl, createTask_no_auth_and_defaults
    { title := some "T", description := some "D" } 4 9 3 []
    [⟨4, "N", "E", "user"⟩] (by rfl) (by intro t ht; cases ht)
    ⟨⟨4, "N", "E", "user"⟩, List.mem_singleton.mpr rfl, rfl⟩
    ⟨⟨4, "N", "E", "user"⟩, List.mem_singleton.mpr rfl, rfl⟩⟩

/-- C10: the creator cannot be spoofed — two createTask bodies differing
only in the caller-supplied createdBy field give identical results (the
field is overwritten after the spread), and the stored document's
createdBy is the authenticated caller. -/
theorem createTask_createdBy_unspoofable (td : TaskData)
    (c1 c2 : Option Nat) (uid newId now : Nat)
    (store : List Task) (users : List User) :
    createTask { td with createdBy := c1 } uid newId now store users =
      createTask { td with createdBy := c2 } uid newId now store users
    ∧ (buildNewTask { td with createdBy := c1 } uid newId now).createdBy
        = uid :=
  ⟨rfl, rfl⟩

/-- C7 counterexample: an authorized update whose patch carries a
createdBy field overwrites the stored creator — the persisted record's
createdBy changes from 2 to 99 — so createdBy is not immutable through
updateTask as the claim states. -/
theorem updateTask_createdBy_mutable_counterexample :
    updateTask 1 { createdBy := some 99 } 1 "user"
      [⟨1, "T", "D", "todo", "medium", none, 1, 2, false, 0⟩] [] =
      .ok (some ⟨⟨1, "T", "D", "todo", "medium", none, 1, 99, false, 0⟩,
          none, none⟩,
        [⟨1, "T", "D", "todo", "medium", none, 1, 99, false, 0⟩])
    ∧ (99 : Nat) ≠ 2 :=
  ⟨rfl, by decide⟩

/-- C7 amended: createdBy survives every successful update whose patch
does not itself carry a createdBy field — the service adds no protection,
but Object.assign leaves absent fields alone. -/
theorem updateTask_preserves_createdBy (taskId : Nat) (upd : TaskData)
    (uid : Nat) (role : String) (store store' : List Task)
    (users : List User) (r : Option PopTask)
    (hn : idsNodup store) (hc : upd.createdBy = none)
    (h : updateTask taskId upd uid role store users = .ok (r, store')) :
    ∀ u ∈ store', ∀ v ∈ store, u.id = v.id → u.createdBy = v.createdBy := by
  unfold updateTask at h
  split at h
  · simp only [Except.ok.injEq, Prod.mk.injEq] at h
    obtain ⟨-, h2⟩ := h
    subst h2
    intro u hu v hv hid
    rw [task_eq_of_idsNodup hn hu hv hid]
  · rename_i t0 hf
    split at h
    · exact Except.noConfusion h
    · dsimp only at h
      split at h
      · exact Except.noConfusion h
      · simp only [Except.ok.injEq, Prod.mk.injEq] at h
        obtain ⟨-, h2⟩ := h
        subst h2
        obtain ⟨ht0, -, -⟩ := findActive_spec hf
        intro u hu v hv hid
        obtain ⟨w, hw, hweq⟩ := List.mem_map.mp hu
        by_cases hcase : w.id = (applyUpdate t0 upd).id
        · have hu2 : u = applyUpdate t0 upd := by
            rw [← hweq]; simp [hcase]
          have happ_id : (applyUpdate t0 upd).id = t0.id := rfl
          have happ_cb : (applyUpdate t0 upd).createdBy = t0.createdBy := by
            simp [applyUpdate, hc]
          have hv2 : v = t0 := task_eq_of_idsNodup hn hv ht0
            (by rw [← hid, hu2, happ_id])
          rw [hu2, happ_cb, hv2]
        · have hu2 : u = w := by rw [← hweq]; simp [hcase]
          have hv2 : v = w := task_eq_of_idsNodup hn hv hw (by rw [← hid, hu2])
          rw [hu2, hv2]

theorem updateTask_preserves_createdBy_witness :
    (⟨1, "T", "D", "done", "medium", none, 1, 2, false, 0⟩ : Task).createdBy
      = 2 :=
  updateTask_preserves_createdBy 1 { status := some "done" } 1 "user"
    [⟨1, "T", "D", "todo", "medium", none, 1, 2, false, 0⟩]
    [⟨1, "T", "D", "done", "medium", none, 1, 2, false, 0⟩] []
    (some ⟨⟨1, "T", "D", "done", "medium", none, 1, 2, false, 0⟩, none, none⟩)
    (by unfold idsNodup; decide) rfl rfl
    ⟨1, "T", "D", "done", "medium", none, 1, 2, false, 0⟩
    (List.mem_singleton.mpr rfl)
    ⟨1, "T", "D", "todo", "medium", none, 1, 2, false, 0⟩
    (List.mem_singleton.mpr rfl) rfl

/-- Each group value of a grouped count appears exactly once in the output
of the aggregation, paired with its occurrence count among live tasks. -/
theorem filter_group_map {l : List String} (hn : l.Nodup) {s : String}
    (hs : s ∈ l) (f : String → StatGroup) (hf : ∀ g, (f g).group = g) :
    (l.map f).filter (fun g => g.group == s) = [f s] := by
  induction l with
  | nil => cases hs
  | cons a t ih =>
    rw [List.nodup_cons] at hn
    rcases List.mem_cons.mp hs with rfl | hmem
    · simp only [List.map_cons]
      rw [List.filter_cons_of_pos (by simp [hf])]
      have hnil : (t.map f).filter (fun g => g.group == s) = [] := by
        rw [List.filter_eq_nil_iff]
        intro x hx
        obtain ⟨g, hg, rfl⟩ := List.mem_map.mp hx
        simp only [hf, beq_iff_eq]
        intro he
        exact hn.1 (he ▸ hg)
      rw [hnil]
    · have hne : a ≠ s := fun he => hn.1 (he ▸ hmem)
      simp only [List.map_cons]
      rw [List.filter_cons_of_neg (by simp [hf, hne])]
      exact ih hn.2 hmem

theorem groupCount_spec (key : Task → String) (store : List Task)
    (s : String)
    (hs : s ∈ (store.filter (fun t => !t.isDeleted)).map key) :
    (groupCount key store).filter (fun g => g.group == s) =
      [⟨s, ((store.filter (fun t => !t.isDeleted)).filter
        (fun t => key t == s)).length⟩] := by
  unfold groupCount
  exact filter_group_map (List.nodup_dedup _) (List.mem_dedup.mpr hs)
    _ (fun g => rfl)

/-- C9: getTaskStats counts only live tasks — every status (resp.
priority) occurring among non-deleted tasks has exactly one byStatus
(resp. byPriority) row, counting exactly the non-deleted tasks carrying
it, and every row's group value does occur among the non-deleted tasks. -/
theorem getTaskStats_counts (store : List Task) :
    (∀ s ∈ (store.filter (fun t => !t.isDeleted)).map (fun t => t.status),
      (getTaskStats store).byStatus.filter (fun g => g.group == s) =
        [⟨s, ((store.filter (fun t => !t.isDeleted)).filter
          (fun t => t.status == s)).length⟩])
    ∧ (∀ p ∈ (store.filter (fun t => !t.isDeleted)).map (fun t => t.priority),
      (getTaskStats store).byPriority.filter (fun g => g.group == p) =
        [⟨p, ((store.filter (fun t => !t.isDeleted)).filter
          (fun t => t.priority == p)).length⟩])
    ∧ (∀ g ∈ (getTaskStats store).byStatus,
        g.group ∈ (store.filter (fun t => !t.isDeleted)).map
          (fun t => t.status))
    ∧ (∀ g ∈ (getTaskStats store).byPriority,
        g.group ∈ (store.filter (fun t => !t.isDeleted)).map
          (fun t => t.priority)) := by
  refine ⟨fun s hs => groupCount_spec _ store s hs,
    fun p hp => groupCount_spec _ store p hp, ?_, ?_⟩
  · intro g hg
    obtain ⟨x, hx, rfl⟩ := List.mem_map.mp hg
    exact List.mem_dedup.mp hx
  · intro g hg
    obtain ⟨x, hx, rfl⟩ := List.mem_map.mp hg
    exact List.mem_dedup.mp hx

/-- The spec's worked example: three todo and two done live tasks. -/
def statsStore : List Task :=
  [⟨1, "T", "D", "todo", "medium", none, 1, 1, false, 0⟩,
   ⟨2, "T", "D", "todo", "medium", none, 1, 1, false, 1⟩,
   ⟨3, "T", "D", "todo", "medium", none, 1, 1, false, 2⟩,
   ⟨4, "T", "D", "done", "medium", none, 1, 1, false, 3⟩,
   ⟨5, "T", "D", "done", "medium", none, 1, 1, false, 4⟩]

theorem getTaskStats_counts_witness :
    (getTaskStats statsStore).byStatus.filter (fun g => g.group == "todo") =
      [⟨"todo", 3⟩] := by
  rw [(getTaskStats_counts statsStore).1 "todo" (by decide)]
  rfl

instance : IsTotal Task createdAtDesc :=
  ⟨fun a b => Nat.le_total b.createdAt a.createdAt⟩

instance : IsTrans Task createdAtDesc :=
  ⟨fun _ _ _ h1 h2 => Nat.le_trans h2 h1⟩

theorem ceilDivNat_eq_zero_iff {n L : Nat} (hL : 1 ≤ L) :
    ceilDivNat n L = 0 ↔ n = 0 := by
  unfold ceilDivNat
  rw [Nat.div_eq_zero_iff (by omega)]
  omega

theorem ceilDivNat_succ {n L m : Nat} (hL : 1 ≤ L)
    (h : ceilDivNat n L = m + 1) : ceilDivNat (n - L) L = m := by
  unfold ceilDivNat at h ⊢
  have hn : 1 ≤ n := by
    by_contra hc
    have hn0 : n = 0 := by omega
    subst hn0
    have hz : (0 + L - 1) / L = 0 := Nat.div_eq_of_lt (by omega)
    omega
  have key : (n + L - 1) / L = (n - 1) / L + 1 := by
    have he : n + L - 1 = (n - 1) + L := by omega
    rw [he, Nat.add_div_right _ (by omega)]
  rw [key] at h
  have hm : (n - 1) / L = m := by omega
  by_cases hcase : n ≤ L
  · have h0 : n - L = 0 := by omega
    have h1 : (0 + L - 1) / L = 0 := Nat.div_eq_of_lt (by omega)
    have h2 : (n - 1) / L = 0 := Nat.div_eq_of_lt (by omega)
    rw [h0]
    omega
  · have h3 : n - L + L - 1 = (n - 1 - L) + L := by omega
    rw [h3, Nat.add_div_right _ (by omega)]
    have h4 : n - 1 = (n - 1 - L) + L := by omega
    rw [h4, Nat.add_div_right _ (by omega)] at hm
    omega

/-- Reassembling consecutive skip/take pages of size L gives back the whole
list. -/
theorem join_slices {α : Type} (L : Nat) (hL : 1 ≤ L) (l : List α) :
    ((List.range (ceilDivNat l.length L)).map
      (fun i => (l.drop (i * L)).take L)).flatten = l := by
  suffices hgen : ∀ n (l : List α), ceilDivNat l.length L = n →
      ((List.range n).map (fun i => (l.drop (i * L)).take L)).flatten = l from
    hgen _ l rfl
  intro n
  induction n with
  | zero =>
    intro l hn
    rw [List.eq_nil_of_length_eq_zero ((ceilDivNat_eq_zero_iff hL).mp hn)]
    rfl
  | succ n ih =>
    intro l hn
    rw [List.range_succ_eq_map]
    simp only [List.map_cons, List.flatten_cons, List.map_map]
    have hhead : (l.drop (0 * L)).take L = l.take L := by
      rw [Nat.zero_mul]
      rfl
    have hfun : (List.range n).map
        ((fun i => (l.drop (i * L)).take L) ∘ Nat.succ) =
        (List.range n).map (fun i => ((l.drop L).drop (i * L)).take L) := by
      refine List.map_congr_left (fun i _ => ?_)
      show (l.drop (Nat.succ i * L)).take L = ((l.drop L).drop (i * L)).take L
      rw [List.drop_drop]
      have he : L + i * L = Nat.succ i * L := by
        rw [Nat.succ_mul, Nat.add_comm]
      rw [he]
    have hrec : ((List.range n).map
        (fun i => ((l.drop L).drop (i * L)).take L)).flatten = l.drop L := by
      refine ih (l.drop L) ?_
      rw [List.length_drop]
      exact ceilDivNat_succ hL hn
    rw [hhead, hfun, hrec, List.take_append_drop]

/-- C5: pagination — for numeric page p ≥ 1 and limit L ≥ 1, getTasks
returns exactly the slice skipping (p−1)·L sorted records and taking at
most L, with metadata (p, L, total, ceil(total/L)); the slices for
i = 0 .. ceil(N/L)−1 concatenate, in order, to the whole sorted filtered
result set (no duplicates or omissions); and under the default sort key
the result set is ordered newest-first. -/
theorem getTasks_pagination (uid : Nat) (role : String) (q : TaskQuery)
    (store : List Task) (users : List User) (p L : Int)
    (hp : pageNum q = some p) (hpm : pageParsed q = some p)
    (hl : limitNum q = some L) (hlm : limitParsed q = some L)
    (h1 : 1 ≤ p) (hL : 1 ≤ L) :
    getTasks uid role q store users =
      some ((((applySort (sortKey q) (store.filter (taskFilter uid role q))).drop
          (((p - 1) * L).toNat)).take L.toNat).map (populateTask users),
        ⟨some p, some L, (store.filter (taskFilter uid role q)).length,
         some (ceilDivNat (store.filter (taskFilter uid role q)).length
           L.toNat)⟩)
    ∧ (((applySort (sortKey q) (store.filter (taskFilter uid role q))).drop
          (((p - 1) * L).toNat)).take L.toNat).length ≤ L.toNat
    ∧ ((List.range (ceilDivNat
          (applySort (sortKey q) (store.filter (taskFilter uid role q))).length
          L.toNat)).map
        (fun i => ((applySort (sortKey q)
          (store.filter (taskFilter uid role q))).drop (i * L.toNat)).take
            L.toNat)).flatten =
      applySort (sortKey q) (store.filter (taskFilter uid role q))
    ∧ (sortKey q = "-createdAt" →
        (applySort (sortKey q)
          (store.filter (taskFilter uid role q))).Sorted createdAtDesc) := by
  have hL0 : (0 : Int) ≤ L := by omega
  have hLn : 1 ≤ L.toNat := by omega
  refine ⟨?_, ?_, ?_, ?_⟩
  · have hsk : skipVal q = some ((p - 1) * L) := by
      unfold skipVal
      rw [hp, hl]
      rfl
    have hnneg : ¬ ((p - 1) * L < 0 ∨ L < 0) := by
      push_neg
      exact ⟨mul_nonneg (by omega) hL0, by omega⟩
    unfold getTasks
    simp only [hsk, hlm]
    rw [if_neg hnneg]
    unfold sliceTasks
    rw [if_neg (by omega : ¬ L = 0)]
    unfold pagesMeta
    simp only [hl, hpm]
    rw [if_neg (by omega : ¬ L ≤ 0)]
  · rw [List.length_take]
    exact Nat.min_le_left _ _
  · exact join_slices L.toNat hLn _
  · intro hk
    rw [hk]
    unfold applySort
    rw [if_pos (by simp)]
    exact List.sorted_insertionSort createdAtDesc _

/-- Three live tasks with increasing creation times, for exercising the
pagination theorem. -/
def pagStore : List Task :=
  [⟨1, "T", "D", "todo", "medium", none, 1, 1, false, 0⟩,
   ⟨2, "T", "D", "todo", "medium", none, 1, 1, false, 1⟩,
   ⟨3, "T", "D", "todo", "medium", none, 1, 1, false, 2⟩]

theorem getTasks_pagination_witness :
    getTasks 1 "admin" { page := some "1", limit := some "2" } pagStore [] =
      some ([⟨⟨3, "T", "D", "todo", "medium", none, 1, 1, false, 2⟩,
          none, none⟩,
        ⟨⟨2, "T", "D", "todo", "medium", none, 1, 1, false, 1⟩, none, none⟩],
        ⟨some 1, some 2, 3, some 2⟩) := by
  rw [(getTasks_pagination 1 "admin" { page := some "1", limit := some "2" }
    pagStore [] 1 2 rfl rfl rfl rfl (by decide) (by decide)).1]
  rfl

/-- C8 counterexample: a non-numeric page value is not coerced to the
default page 1 — the JavaScript coercions make it NaN (both in the skip
arithmetic and in the parseInt for the metadata), and the store call with
a NaN skip fails, so the call produces no defaulted, well-defined result. -/
theorem getTasks_malformed_page_counterexample :
    getTasks 1 "user" { page := some "abc" } [] [] = none
    ∧ pageNum { page := some "abc" } = none
    ∧ pageParsed { page := some "abc" } = none :=
  ⟨rfl, rfl, rfl⟩

/-- C8 amended: the defaults protect only absent parameters — with page,
limit and sortBy missing, getTasks succeeds with page 1, limit 10, the
newest-first sort and well-defined metadata; a malformed (non-numeric)
page or limit string is not coerced to any default but becomes NaN and the
call fails. -/
theorem getTasks_defaults_when_absent (uid : Nat) (role : String)
    (q : TaskQuery) (store : List Task) (users : List User)
    (hq : q.page = none) (hl : q.limit = none) (hs : q.sortBy = none) :
    getTasks uid role q store users =
      some (((applySort "-createdAt"
          (store.filter (taskFilter uid role q))).take 10).map
          (populateTask users),
        ⟨some 1, some 10, (store.filter (taskFilter uid role q)).length,
         some (ceilDivNat (store.filter (taskFilter uid role q)).length
           10)⟩) := by
  have hsk : skipVal q = some 0 := by
    unfold skipVal pageNum limitNum
    rw [hq, hl]
    rfl
  have hlm : limitParsed q = some 10 := by
    unfold limitParsed
    rw [hl]
  have hkey : sortKey q = "-createdAt" := by
    unfold sortKey
    rw [hs]
    rfl
  unfold getTasks
  simp only [hsk, hlm]
  rw [if_neg (by omega : ¬ ((0 : Int) < 0 ∨ (10 : Int) < 0))]
  unfold sliceTasks
  rw [if_neg (by omega : ¬ (10 : Int) = 0)]
  unfold pagesMeta
  unfold limitNum
  rw [hl]
  unfold pageParsed
  rw [hq, hkey]
  rfl

theorem getTasks_defaults_when_absent_witness :
    getTasks 1 "user" {}
      [⟨1, "T", "D", "todo", "medium", none, 1, 1, false, 0⟩] [] =
      some ([⟨⟨1, "T", "D", "todo", "medium", none, 1, 1, false, 0⟩,
          none, none⟩],
        ⟨some 1, some 10, 1, some 1⟩) := by
  rw [getTasks_defaults_when_absent 1 "user" {}
    [⟨1, "T", "D", "todo", "medium", none, 1, 1, false, 0⟩] [] rfl rfl rfl]
  rfl

end TaskMgmt
